import Mathlib

/-!
Verification of `examples/trips/generate_data.py`: a batch ETL script that
reads a table of per-timestep vehicle trajectory rows, filters them to a time
window, sorts by (vehicle_id, timestep_time), optionally subsamples whole
vehicles, groups rows by vehicle, flattens the per-vehicle sequences into
seven flat attribute buffers sharing one offsets array, assembles a columnar
table, and writes it out.

The shallow embedding below mirrors the script step by step on lists.
Numeric dataframe values are modelled as `Rat` (the claims under study do not
depend on float rounding), vehicle identifiers as `Int` (the script accepts
any column type and applies python `str` to each id when emitting the
`vehicle_id` column; `Int` with `toString` exhibits that genericity).
The random draw of `np.random.choice` is a parameter `draw`; theorems
constrain it exactly as `np.random.choice(unique, size=min(N, len(unique)),
replace=False)` guarantees: no duplicates, drawn from the unique ids, of the
stated size.
-/

namespace GenerateData

/-- One input row of the FCD dataframe.  Required columns of the script are
`vehicle_id`, `timestep_time`, `vehicle_x`, `vehicle_y`; the rest are the
optional columns.  Column presence is a whole-dataframe property, carried by
the flags in `Dataset` below, so optional values live here unconditionally
and are consulted only when the corresponding flag is set. -/
structure Row where
  vehicle_id : Int
  timestep_time : Rat
  vehicle_x : Rat
  vehicle_y : Rat
  vehicle_speed : Rat
  vehicle_edge : String
  vehicle_pos : Rat
  vehicle_speedRelative : Rat
  vehicle_angle : Rat
deriving DecidableEq, Repr, Inhabited

/-- The loaded dataframe: its rows plus which optional columns are present
(`'vehicle_speed' in group.columns` etc. in the script). -/
structure Dataset where
  rows : List Row
  hasSpeed : Bool
  hasEdge : Bool
  hasPos : Bool
  hasSpeedRel : Bool
  hasAngle : Bool
deriving DecidableEq, Repr, Inhabited

/-- Line 23: `df.loc[(df['timestep_time'] < 7.25*3600) & (df['timestep_time'] > 7*3600)]`.
The bounds are written as the products' exact values, 26100 and 25200
(`7.25*3600` and `7*3600` are exact in floating point); the equations with
the source expressions are `upper_bound_value` and `lower_bound_value`. -/
def timeFilter (rows : List Row) : List Row :=
  rows.filter (fun r =>
    decide (r.timestep_time < (26100 : Rat)) &&
    decide (r.timestep_time > (25200 : Rat)))

theorem upper_bound_value : (26100 : Rat) = 7.25 * 3600 := by norm_num

theorem lower_bound_value : (25200 : Rat) = 7 * 3600 := by norm_num

/-- The comparison key of line 29, `df.sort_values(['vehicle_id', 'timestep_time'])`:
lexicographic (vehicle_id, timestep_time). -/
def RowLe (a b : Row) : Prop :=
  a.vehicle_id < b.vehicle_id ∨
    (a.vehicle_id = b.vehicle_id ∧ a.timestep_time ≤ b.timestep_time)

instance : DecidableRel RowLe := fun a b =>
  inferInstanceAs (Decidable (a.vehicle_id < b.vehicle_id ∨
    (a.vehicle_id = b.vehicle_id ∧ a.timestep_time ≤ b.timestep_time)))

instance : IsTotal Row RowLe :=
  ⟨fun a b => by
    rcases lt_trichotomy a.vehicle_id b.vehicle_id with h | h | h
    · exact Or.inl (Or.inl h)
    · rcases le_total a.timestep_time b.timestep_time with ht | ht
      · exact Or.inl (Or.inr ⟨h, ht⟩)
      · exact Or.inr (Or.inr ⟨h.symm, ht⟩)
    · exact Or.inr (Or.inl h)⟩

instance : IsTrans Row RowLe :=
  ⟨fun a b c hab hbc => by
    rcases hab with h1 | ⟨h1, t1⟩ <;> rcases hbc with h2 | ⟨h2, t2⟩
    · exact Or.inl (h1.trans h2)
    · exact Or.inl (h2 ▸ h1)
    · exact Or.inl (h1 ▸ h2)
    · exact Or.inr ⟨h1.trans h2, t1.trans t2⟩⟩

/-- Line 29: pandas multi-column `sort_values` uses `np.lexsort`, a stable
sort.  A stable sort is uniquely determined by its comparison key (the sorted
stable permutation of a list is unique), so it is modelled by
`List.insertionSort`, whose stability is proved below. -/
def sortRows (rows : List Row) : List Row :=
  rows.insertionSort RowLe

/-- Line 33: `df['vehicle_id'].unique()` — the distinct vehicle ids.
Only the underlying set and its size are consumed (the draw is a theorem
parameter), so `dedup` stands in for the first-seen-order `unique`. -/
def uniqueVehicles (rows : List Row) : List Int :=
  (rows.map Row.vehicle_id).dedup

/-- Lines 32-39: when `SAMPLE_VEHICLES` is configured, keep exactly the rows
whose vehicle id is in the drawn set (`df[df['vehicle_id'].isin(sampled_vehicles)]`);
otherwise the dataframe is untouched.  `draw` models `sampled_vehicles`. -/
def sampleFilter (sample : Option Nat) (draw : List Int) (rows : List Row) : List Row :=
  match sample with
  | none => rows
  | some _ => rows.filter (fun r => decide (r.vehicle_id ∈ draw))

/-- Line 43: `df.groupby('vehicle_id')` iterates groups in ascending key
order (pandas `sort=True` default); these are the keys in that order. -/
def groupKeys (rows : List Row) : List Int :=
  (uniqueVehicles rows).insertionSort (fun a b => a ≤ b)

/-- The rows of one group, in dataframe order (pandas groups preserve the
order of the underlying frame). -/
def groupRows (k : Int) (rows : List Row) : List Row :=
  rows.filter (fun r => r.vehicle_id == k)

/-- Line 66: the `(vehicle_id, group)` pairs of `grouped`, in key order. -/
def grouped (rows : List Row) : List (Int × List Row) :=
  (groupKeys rows).map (fun k => (k, groupRows k rows))

/-- Lines 70-71: coordinate pairs (vehicle_x, vehicle_y) of one group. -/
def tripCoords (g : List Row) : List (Rat × Rat) :=
  g.map (fun r => (r.vehicle_x, r.vehicle_y))

/-- Line 74: timestamps of one group. -/
def tripTimestamps (g : List Row) : List Rat :=
  g.map Row.timestep_time

/-- Lines 77-80: speeds of one group, defaulting to 0.0 when the
`vehicle_speed` column is absent. -/
def tripSpeeds (hasSpeed : Bool) (g : List Row) : List Rat :=
  if hasSpeed then g.map Row.vehicle_speed else g.map (fun _ => 0)

/-- Lines 83-88: edge id strings of one group, defaulting to "" when the
`vehicle_edge` column is absent. -/
def tripEdges (hasEdge : Bool) (g : List Row) : List String :=
  if hasEdge then g.map Row.vehicle_edge else g.map (fun _ => "")

/-- Lines 91-94: positions on edge, defaulting to 0.0 when the
`vehicle_pos` column is absent. -/
def tripPositions (hasPos : Bool) (g : List Row) : List Rat :=
  if hasPos then g.map Row.vehicle_pos else g.map (fun _ => 0)

/-- Lines 97-101: relative speeds, defaulting to 1.0 when the
`vehicle_speedRelative` column is absent (the comment in the script says
mid-range but the literal written is 1.0). -/
def tripRelativeSpeeds (hasSpeedRel : Bool) (g : List Row) : List Rat :=
  if hasSpeedRel then g.map Row.vehicle_speedRelative else g.map (fun _ => 1)

/-- Lines 105-109: angles, defaulting to 0.0 when the `vehicle_angle`
column is absent. -/
def tripAngles (hasAngle : Bool) (g : List Row) : List Rat :=
  if hasAngle then g.map Row.vehicle_angle else g.map (fun _ => 0)

/-- Lines 52, 65, 115-116: `offsets[0] = 0` and, walking the groups with the
running `current_offset`, `offsets[i+1] = current_offset + len(group_i)`. -/
def offsetsFrom (acc : Nat) : List (List Row) → List Nat
  | [] => [acc]
  | g :: gs => acc :: offsetsFrom (acc + g.length) gs

/-- The seven flat attribute buffers, the offsets array, and the per-trip
vehicle id strings produced by the loop of lines 65-116. -/
structure Flat where
  offsets : List Nat
  coords : List (Rat × Rat)
  timestamps : List Rat
  speeds : List Rat
  edges : List String
  positions : List Rat
  relative_speeds : List Rat
  angles : List Rat
  vehicle_ids : List String
deriving DecidableEq, Repr, Inhabited

/-- The loop of lines 65-116.  The script fills preallocated arrays slice by
slice, `buf[current_offset : current_offset+len(group)] = column(group)`,
walking the groups in order; that is concatenation of the per-group lists in
group order.  `vehicle_ids.append(str(vehicle_id))` at line 112 stringifies
each key. -/
def buildFlat (ds : Dataset) (rows : List Row) : Flat :=
  let gs := grouped rows
  { offsets := offsetsFrom 0 (gs.map Prod.snd)
    coords := (gs.map (fun p => tripCoords p.2)).flatten
    timestamps := (gs.map (fun p => tripTimestamps p.2)).flatten
    speeds := (gs.map (fun p => tripSpeeds ds.hasSpeed p.2)).flatten
    edges := (gs.map (fun p => tripEdges ds.hasEdge p.2)).flatten
    positions := (gs.map (fun p => tripPositions ds.hasPos p.2)).flatten
    relative_speeds := (gs.map (fun p => tripRelativeSpeeds ds.hasSpeedRel p.2)).flatten
    angles := (gs.map (fun p => tripAngles ds.hasAngle p.2)).flatten
    vehicle_ids := gs.map (fun p => toString p.1) }

/-- A column of the assembled Arrow table.  Nested (list-typed) columns carry
the offsets array they were built from (`pa.ListArray.from_arrays(pa.array(offsets), values)`,
lines 134-140); float32 element values are carried as the rationals they were
cast from. -/
inductive ColumnData where
  | nestedCoordPairs (offs : List Nat) (values : List (Rat × Rat))
  | nestedFloat32 (offs : List Nat) (values : List Rat)
  | nestedString (offs : List Nat) (values : List String)
  | scalarString (values : List String)
deriving DecidableEq, Repr

/-- The offsets array a nested column was built from; none for a scalar column. -/
def ColumnData.offsetsUsed : ColumnData → Option (List Nat)
  | .nestedCoordPairs offs _ => some offs
  | .nestedFloat32 offs _ => some offs
  | .nestedString offs _ => some offs
  | .scalarString _ => none

/-- Lines 131-152: the `pa.table({...})` dict, one (name, column) pair per
entry, in the order written in the script. -/
def assembleTable (f : Flat) : List (String × ColumnData) :=
  [("geometry", .nestedCoordPairs f.offsets f.coords),
   ("timestamps", .nestedFloat32 f.offsets f.timestamps),
   ("speeds", .nestedFloat32 f.offsets f.speeds),
   ("edges", .nestedString f.offsets f.edges),
   ("positions", .nestedFloat32 f.offsets f.positions),
   ("relative_speeds", .nestedFloat32 f.offsets f.relative_speeds),
   ("angles", .nestedFloat32 f.offsets f.angles),
   ("vehicle_id", .scalarString f.vehicle_ids)]

/-- The result of a successful run: the buffers, the assembled table, and the
timestamp range the script reports at line 127. -/
structure Output where
  flat : Flat
  table : List (String × ColumnData)
  min_timestamp : Rat
  max_timestamp : Rat
deriving DecidableEq, Repr

/-- The rows the script retains: filter (line 23), sort (line 29), sample
(lines 32-39), in that order. -/
def retainedRows (ds : Dataset) (sampleVehicles : Option Nat) (draw : List Int) : List Row :=
  sampleFilter sampleVehicles draw (sortRows (timeFilter ds.rows))

/-- The flat buffers the loop builds for a given input dataframe,
`SAMPLE_VEHICLES` configuration, and random draw. -/
def flatOf (ds : Dataset) (sampleVehicles : Option Nat) (draw : List Int) : Flat :=
  buildFlat ds (retainedRows ds sampleVehicles draw)

/-- The whole script as one function of the loaded dataframe, the configured
`SAMPLE_VEHICLES`, and the random draw.  Lines 124-125 compute
`timestamps.min()` and `timestamps.max()`; numpy raises `ValueError` on a
zero-size array, so the run is `none` (the process aborts before writing any
output) exactly when no rows survive. -/
def runScript (ds : Dataset) (sampleVehicles : Option Nat) (draw : List Int) : Option Output :=
  let flat := flatOf ds sampleVehicles draw
  match flat.timestamps.min?, flat.timestamps.max? with
  | some mn, some mx =>
      some { flat := flat, table := assembleTable flat,
             min_timestamp := mn, max_timestamp := mx }
  | _, _ => none

/-! ### Concrete inputs used by witnesses and counterexamples -/

/-- A row of vehicle 2 inside the time window. -/
def rowA : Row :=
  { vehicle_id := 2, timestep_time := 25600, vehicle_x := 10, vehicle_y := 11,
    vehicle_speed := 12, vehicle_edge := "e1", vehicle_pos := 13,
    vehicle_speedRelative := 14, vehicle_angle := 15 }

/-- An earlier row of vehicle 2 inside the time window. -/
def rowB : Row :=
  { vehicle_id := 2, timestep_time := 25500, vehicle_x := 20, vehicle_y := 21,
    vehicle_speed := 22, vehicle_edge := "e2", vehicle_pos := 23,
    vehicle_speedRelative := 24, vehicle_angle := 25 }

/-- A second row of vehicle 2 with the same timestamp as `rowA` but different
coordinates: an equal-key pair for exercising sort stability. -/
def rowA2 : Row :=
  { vehicle_id := 2, timestep_time := 25600, vehicle_x := 70, vehicle_y := 71,
    vehicle_speed := 72, vehicle_edge := "e7", vehicle_pos := 73,
    vehicle_speedRelative := 74, vehicle_angle := 75 }

/-- A row of vehicle 10 inside the time window. -/
def rowC : Row :=
  { vehicle_id := 10, timestep_time := 25550, vehicle_x := 30, vehicle_y := 31,
    vehicle_speed := 32, vehicle_edge := "e3", vehicle_pos := 33,
    vehicle_speedRelative := 34, vehicle_angle := 35 }

/-- A row far outside the time window. -/
def rowOut : Row :=
  { vehicle_id := 1, timestep_time := 100, vehicle_x := 40, vehicle_y := 41,
    vehicle_speed := 42, vehicle_edge := "e4", vehicle_pos := 43,
    vehicle_speedRelative := 44, vehicle_angle := 45 }

/-- A row exactly on the lower bound of the time window. -/
def rowLow : Row :=
  { vehicle_id := 3, timestep_time := 25200, vehicle_x := 50, vehicle_y := 51,
    vehicle_speed := 52, vehicle_edge := "e5", vehicle_pos := 53,
    vehicle_speedRelative := 54, vehicle_angle := 55 }

/-- A row exactly on the upper bound of the time window. -/
def rowHigh : Row :=
  { vehicle_id := 4, timestep_time := 26100, vehicle_x := 60, vehicle_y := 61,
    vehicle_speed := 62, vehicle_edge := "e6", vehicle_pos := 63,
    vehicle_speedRelative := 64, vehicle_angle := 65 }

/-- Two vehicles (ids 2 and 10) inside the window, listed out of order, all
optional columns present. -/
def dsTwo : Dataset :=
  { rows := [rowC, rowA, rowB, rowA2], hasSpeed := true, hasEdge := true,
    hasPos := true, hasSpeedRel := true, hasAngle := true }

/-- A dataset whose only row lies outside the time window. -/
def dsOut : Dataset :=
  { rows := [rowOut], hasSpeed := true, hasEdge := true,
    hasPos := true, hasSpeedRel := true, hasAngle := true }

/-- Two vehicles inside the window with every optional column absent. -/
def dsBare : Dataset :=
  { rows := [rowA, rowC], hasSpeed := false, hasEdge := false,
    hasPos := false, hasSpeedRel := false, hasAngle := false }

/-! ### Helper lemmas about the grouping, the offsets array, and the buffers -/

theorem groupKeys_nodup (rows : List Row) : (groupKeys rows).Nodup :=
  ((uniqueVehicles rows).perm_insertionSort (fun a b => a ≤ b)).nodup_iff.mpr
    (List.nodup_dedup _)

theorem mem_groupKeys {rows : List Row} {k : Int} :
    k ∈ groupKeys rows ↔ k ∈ rows.map Row.vehicle_id := by
  unfold groupKeys uniqueVehicles
  rw [((rows.map Row.vehicle_id).dedup.perm_insertionSort (fun a b => a ≤ b)).mem_iff,
    List.mem_dedup]

theorem groupKeys_sorted (rows : List Row) : (groupKeys rows).Sorted (· ≤ ·) :=
  List.sorted_insertionSort _ _

theorem offsetsFrom_length (acc : Nat) (gs : List (List Row)) :
    (offsetsFrom acc gs).length = gs.length + 1 := by
  induction gs generalizing acc with
  | nil => rfl
  | cons g gs ih => simp [offsetsFrom, ih]

theorem offsetsFrom_head? (acc : Nat) (gs : List (List Row)) :
    (offsetsFrom acc gs).head? = some acc := by
  cases gs <;> rfl

theorem offsetsFrom_getLast? (acc : Nat) (gs : List (List Row)) :
    (offsetsFrom acc gs).getLast? = some (acc + (gs.map List.length).sum) := by
  induction gs generalizing acc with
  | nil => simp [offsetsFrom]
  | cons g gs ih =>
      rw [offsetsFrom, List.getLast?_cons, ih]
      simp [offsetsFrom_length]
      omega

theorem offsetsFrom_le (acc : Nat) (gs : List (List Row)) :
    ∀ b ∈ offsetsFrom acc gs, acc ≤ b := by
  induction gs generalizing acc with
  | nil =>
      intro b hb
      simp [offsetsFrom] at hb
      omega
  | cons g gs ih =>
      intro b hb
      simp only [offsetsFrom, List.mem_cons] at hb
      rcases hb with rfl | hb
      · exact le_refl b
      · exact le_trans (Nat.le_add_right acc g.length) (ih _ b hb)

theorem offsetsFrom_sorted (acc : Nat) (gs : List (List Row)) :
    (offsetsFrom acc gs).Sorted (· ≤ ·) := by
  induction gs generalizing acc with
  | nil => simp [offsetsFrom]
  | cons g gs ih =>
      rw [offsetsFrom, List.sorted_cons]
      exact ⟨fun b hb => le_trans (Nat.le_add_right acc g.length) (offsetsFrom_le _ _ b hb),
        ih _⟩

theorem offsetsFrom_get_zero (acc : Nat) (gs : List (List Row)) (h : 0 < (offsetsFrom acc gs).length) :
    (offsetsFrom acc gs).get ⟨0, h⟩ = acc := by
  cases gs <;> rfl

theorem offsetsFrom_get_succ (acc : Nat) (gs : List (List Row)) (i : Nat) (hi : i < gs.length)
    (h1 : i + 1 < (offsetsFrom acc gs).length) (h2 : i < (offsetsFrom acc gs).length) :
    (offsetsFrom acc gs).get ⟨i + 1, h1⟩ =
      (offsetsFrom acc gs).get ⟨i, h2⟩ + (gs.get ⟨i, hi⟩).length := by
  induction gs generalizing acc i with
  | nil => exact absurd hi (by simp)
  | cons g gs ih =>
      cases i with
      | zero =>
          have : (offsetsFrom acc (g :: gs)).get ⟨1, h1⟩ =
              (offsetsFrom (acc + g.length) gs).get ⟨0, by simp [offsetsFrom_length]⟩ := rfl
          rw [this, offsetsFrom_get_zero, offsetsFrom_get_zero]
          rfl
      | succ i =>
          have hi' : i < gs.length := by simpa using hi
          have h1' : i + 1 < (offsetsFrom (acc + g.length) gs).length := by
            rw [offsetsFrom_length] at h1 ⊢
            simp at h1
            omega
          have h2' : i < (offsetsFrom (acc + g.length) gs).length := by
            rw [offsetsFrom_length] at h2 ⊢
            simp at h2
            omega
          show (offsetsFrom (acc + g.length) gs).get ⟨i + 1, h1'⟩ =
            (offsetsFrom (acc + g.length) gs).get ⟨i, h2'⟩ + (gs.get ⟨i, hi'⟩).length
          exact ih (acc + g.length) i hi' h1' h2'

theorem sum_map_indicator (a : Int) (keys : List Int) :
    (keys.map (fun k => if a = k then 1 else 0)).sum = keys.count a := by
  induction keys with
  | nil => rfl
  | cons k ks ih =>
      rw [List.map_cons, List.sum_cons, ih, List.count_cons]
      by_cases h : a = k <;> simp [h] <;> omega

theorem sum_map_add_nat {α : Type} (l : List α) (f g : α → Nat) :
    (l.map (fun x => f x + g x)).sum = (l.map f).sum + (l.map g).sum := by
  induction l with
  | nil => rfl
  | cons x xs ih =>
      simp only [List.map_cons, List.sum_cons, ih]
      omega

theorem groupRows_cons (k : Int) (r : Row) (rest : List Row) :
    groupRows k (r :: rest) =
      if r.vehicle_id = k then r :: groupRows k rest else groupRows k rest := by
  rw [groupRows, List.filter_cons]
  by_cases h : r.vehicle_id = k <;> simp [h, groupRows]

theorem sum_groupRows_length (keys : List Int) (rows : List Row)
    (hnd : keys.Nodup) (hcov : ∀ r ∈ rows, r.vehicle_id ∈ keys) :
    (keys.map (fun k => (groupRows k rows).length)).sum = rows.length := by
  induction rows with
  | nil => simp [groupRows]
  | cons r rest ih =>
      have hmem : r.vehicle_id ∈ keys := hcov r (by simp)
      have hrest : ∀ x ∈ rest, x.vehicle_id ∈ keys := fun x hx => hcov x (by simp [hx])
      have hsplit : (keys.map fun k => (groupRows k (r :: rest)).length) =
          keys.map fun k => (if r.vehicle_id = k then 1 else 0) + (groupRows k rest).length := by
        refine List.map_congr_left (fun k _ => ?_)
        rw [groupRows_cons]
        by_cases h : r.vehicle_id = k
        · simp [h]
          omega
        · simp [h]
      rw [hsplit, sum_map_add_nat, sum_map_indicator, ih hrest,
        List.count_eq_one_of_mem hnd hmem]
      simp [Nat.add_comm]

theorem grouped_total_length (rows : List Row) :
    ((grouped rows).map (fun p => p.2.length)).sum = rows.length := by
  rw [grouped, List.map_map]
  exact sum_groupRows_length _ _ (groupKeys_nodup rows)
    (fun r hr => mem_groupKeys.mpr (List.mem_map_of_mem Row.vehicle_id hr))

theorem flatten_trip_length {β : Type} (rows : List Row) (f : List Row → List β)
    (hf : ∀ g, (f g).length = g.length) :
    ((grouped rows).map (fun p => f p.2)).flatten.length = rows.length := by
  rw [List.length_flatten, List.map_map]
  have he : ((grouped rows).map (List.length ∘ fun p => f p.2)) =
      (grouped rows).map (fun p => p.2.length) :=
    List.map_congr_left (fun p _ => hf p.2)
  rw [he, grouped_total_length]

theorem tripCoords_length (g : List Row) : (tripCoords g).length = g.length := by
  simp [tripCoords]

theorem tripTimestamps_length (g : List Row) : (tripTimestamps g).length = g.length := by
  simp [tripTimestamps]

theorem tripSpeeds_length (b : Bool) (g : List Row) : (tripSpeeds b g).length = g.length := by
  cases b <;> simp [tripSpeeds]

theorem tripEdges_length (b : Bool) (g : List Row) : (tripEdges b g).length = g.length := by
  cases b <;> simp [tripEdges]

theorem tripPositions_length (b : Bool) (g : List Row) : (tripPositions b g).length = g.length := by
  cases b <;> simp [tripPositions]

theorem tripRelativeSpeeds_length (b : Bool) (g : List Row) :
    (tripRelativeSpeeds b g).length = g.length := by
  cases b <;> simp [tripRelativeSpeeds]

theorem tripAngles_length (b : Bool) (g : List Row) : (tripAngles b g).length = g.length := by
  cases b <;> simp [tripAngles]

theorem flatten_slice {β : Type} (ls : List (List β)) (i : Nat) (hi : i < ls.length) :
    (ls.flatten.drop (((ls.take i).map List.length).sum)).take (ls.get ⟨i, hi⟩).length
      = ls.get ⟨i, hi⟩ := by
  induction ls generalizing i with
  | nil => exact absurd hi (by simp)
  | cons l ls ih =>
      cases i with
      | zero =>
          simp only [List.take_zero, List.map_nil, List.sum_nil, List.drop_zero,
            List.flatten_cons, List.get]
          exact List.take_left l ls.flatten
      | succ i =>
          have hi' : i < ls.length := by simpa using hi
          simp only [List.take_succ_cons, List.map_cons, List.sum_cons,
            List.flatten_cons]
          rw [← List.drop_drop, List.drop_left]
          exact ih i hi'

theorem offsetsFrom_get (acc : Nat) (gs : List (List Row)) (i : Nat)
    (h : i < (offsetsFrom acc gs).length) :
    (offsetsFrom acc gs).get ⟨i, h⟩ = acc + ((gs.take i).map List.length).sum := by
  induction gs generalizing acc i with
  | nil =>
      rw [offsetsFrom_length] at h
      cases i with
      | zero => simp [offsetsFrom]
      | succ i => exact absurd h (by simp)
  | cons g gs ih =>
      cases i with
      | zero => simpa using offsetsFrom_get_zero acc (g :: gs) h
      | succ i =>
          have h' : i < (offsetsFrom (acc + g.length) gs).length := by
            rw [offsetsFrom_length] at h ⊢
            simp at h
            omega
          show (offsetsFrom (acc + g.length) gs).get ⟨i, h'⟩ = _
          rw [ih]
          simp [List.take_succ_cons]
          omega

theorem flat_buffer_facts {β : Type} (rows : List Row) (f : List Row → List β)
    (hf : ∀ g, (f g).length = g.length) (i : Nat) (hi : i < (grouped rows).length)
    (h0 : i < (offsetsFrom 0 ((grouped rows).map Prod.snd)).length) :
    ((grouped rows).map (fun p => f p.2)).flatten.length = rows.length ∧
    ((((grouped rows).map (fun p => f p.2)).flatten.drop
        ((offsetsFrom 0 ((grouped rows).map Prod.snd)).get ⟨i, h0⟩)).take
        ((grouped rows).get ⟨i, hi⟩).2.length)
      = f ((grouped rows).get ⟨i, hi⟩).2 := by
  refine ⟨flatten_trip_length rows f hf, ?_⟩
  have hlm : i < ((grouped rows).map (fun p => f p.2)).length := by simpa using hi
  have hoff : (offsetsFrom 0 ((grouped rows).map Prod.snd)).get ⟨i, h0⟩ =
      ((((grouped rows).map (fun p => f p.2)).take i).map List.length).sum := by
    rw [offsetsFrom_get, ← List.map_take, ← List.map_take, List.map_map,
      List.map_map]
    simp only [Nat.zero_add]
    exact congrArg List.sum (List.map_congr_left (fun p _ => by
      simp [Function.comp, hf]))
  have hget : ((grouped rows).map (fun p => f p.2)).get ⟨i, hlm⟩ =
      f ((grouped rows).get ⟨i, hi⟩).2 := by
    simp
  have hsl := flatten_slice ((grouped rows).map (fun p => f p.2)) i hlm
  rw [hget, hf] at hsl
  rw [hoff]
  exact hsl

theorem sortRows_pairwise (rows : List Row) : (sortRows rows).Pairwise RowLe :=
  List.sorted_insertionSort RowLe rows

theorem sampleFilter_sublist (sv : Option Nat) (draw : List Int) (rows : List Row) :
    List.Sublist (sampleFilter sv draw rows) rows := by
  cases sv with
  | none => exact List.Sublist.refl rows
  | some n => exact List.filter_sublist rows

theorem retainedRows_pairwise (ds : Dataset) (sv : Option Nat) (draw : List Int) :
    (retainedRows ds sv draw).Pairwise RowLe :=
  List.Pairwise.sublist (sampleFilter_sublist sv draw _)
    (sortRows_pairwise (timeFilter ds.rows))

theorem groupRows_mem_id {k : Int} {l : List Row} {r : Row} (h : r ∈ groupRows k l) :
    r.vehicle_id = k := by
  rw [groupRows] at h
  have := (List.mem_filter.mp h).2
  simpa using this

theorem groupRows_timestamps_sorted {l : List Row} (h : l.Pairwise RowLe) (k : Int) :
    (tripTimestamps (groupRows k l)).Sorted (· ≤ ·) := by
  have h1 : (groupRows k l).Pairwise RowLe :=
    List.Pairwise.sublist (List.filter_sublist l) h
  rw [tripTimestamps, List.Sorted, List.pairwise_map]
  refine h1.imp_of_mem (fun {a b} ha hb hab => ?_)
  rcases hab with hlt | ⟨_, hle⟩
  · rw [groupRows_mem_id ha, groupRows_mem_id hb] at hlt
    exact absurd hlt (lt_irrefl k)
  · exact hle

/-! ### Claim theorems -/

/-- C2: for every input, the offsets array produced by the flatten step has
length equal to trip count + 1, is non-decreasing, starts at 0, and its last
element equals the total number of rows retained after filtering and
sampling. -/
theorem offsets_invariants (ds : Dataset) (sv : Option Nat) (draw : List Int) :
    (flatOf ds sv draw).offsets.length = (flatOf ds sv draw).vehicle_ids.length + 1 ∧
    (flatOf ds sv draw).offsets.Sorted (· ≤ ·) ∧
    (flatOf ds sv draw).offsets.head? = some 0 ∧
    (flatOf ds sv draw).offsets.getLast? = some (retainedRows ds sv draw).length := by
  have hoff : (flatOf ds sv draw).offsets =
      offsetsFrom 0 ((grouped (retainedRows ds sv draw)).map Prod.snd) := rfl
  have hvid : (flatOf ds sv draw).vehicle_ids.length =
      (grouped (retainedRows ds sv draw)).length := by
    simp [flatOf, buildFlat]
  refine ⟨?_, ?_, ?_, ?_⟩
  · rw [hoff, offsetsFrom_length, hvid]
    simp
  · rw [hoff]
    exact offsetsFrom_sorted _ _
  · rw [hoff, offsetsFrom_head?]
  · rw [hoff, offsetsFrom_getLast?]
    congr 1
    rw [List.map_map]
    have h := grouped_total_length (retainedRows ds sv draw)
    simpa [Function.comp] using h

/-- C7: the filter step retains exactly the rows whose timestep_time lies
strictly between the configured bounds (25200 and 26100, the exact values of
the products 7*3600 and 7.25*3600 written in the source); rows exactly on
either bound are excluded. -/
theorem time_filter_strict (rows : List Row) (r : Row) :
    (r ∈ timeFilter rows ↔
      r ∈ rows ∧ (25200 : Rat) < r.timestep_time ∧ r.timestep_time < 26100) ∧
    ((26100 : Rat) = 7.25 * 3600 ∧ (25200 : Rat) = 7 * 3600) ∧
    (r.timestep_time = 25200 ∨ r.timestep_time = 26100 → r ∉ timeFilter rows) := by
  have hmem : r ∈ timeFilter rows ↔
      r ∈ rows ∧ (25200 : Rat) < r.timestep_time ∧ r.timestep_time < 26100 := by
    simp only [timeFilter, List.mem_filter, Bool.and_eq_true, decide_eq_true_iff, gt_iff_lt]
    tauto
  refine ⟨hmem, ⟨upper_bound_value, lower_bound_value⟩, ?_⟩
  rintro (h | h) hr
  · have := (hmem.mp hr).2.1
    rw [h] at this
    exact lt_irrefl _ this
  · have := (hmem.mp hr).2.2
    rw [h] at this
    exact lt_irrefl _ this

/-- C7 witness: the boundary rows (timestep_time 25200 and 26100) are
excluded and an interior row is retained, on a concrete list. -/
theorem time_filter_strict_witness :
    (rowLow.timestep_time = 25200 ∨ rowLow.timestep_time = 26100) ∧
    rowLow ∉ timeFilter [rowLow, rowA, rowHigh] ∧
    (rowHigh.timestep_time = 25200 ∨ rowHigh.timestep_time = 26100) ∧
    rowHigh ∉ timeFilter [rowLow, rowA, rowHigh] ∧
    rowA ∈ timeFilter [rowLow, rowA, rowHigh] :=
  ⟨Or.inl rfl,
   (time_filter_strict [rowLow, rowA, rowHigh] rowLow).2.2 (Or.inl rfl),
   Or.inr rfl,
   (time_filter_strict [rowLow, rowA, rowHigh] rowHigh).2.2 (Or.inr rfl),
   (time_filter_strict [rowLow, rowA, rowHigh] rowA).1.mpr (by decide)⟩

/-- C10: when no vehicle-sample count is configured, the conversion does not
depend on the random draw at all: the run is a pure function of the dataset,
so two runs with any two draws produce identical output. -/
theorem deterministic_without_sampling (ds : Dataset) (draw1 draw2 : List Int) :
    runScript ds none draw1 = runScript ds none draw2 := rfl

/-- C8: the assembled table has exactly the columns geometry, timestamps,
speeds, edges (fourth), positions, relative_speeds, angles, vehicle_id in
this order; geometry is the nested coordinate-pair column, edges the nested
string column, vehicle_id the scalar string column (one entry per trip), and
all nested columns are built from the same offsets array. -/
theorem table_layout (ds : Dataset) (sv : Option Nat) (draw : List Int) :
    (assembleTable (flatOf ds sv draw)).map Prod.fst =
      ["geometry", "timestamps", "speeds", "edges", "positions",
       "relative_speeds", "angles", "vehicle_id"] ∧
    (assembleTable (flatOf ds sv draw)).head? =
      some ("geometry", ColumnData.nestedCoordPairs (flatOf ds sv draw).offsets
        (flatOf ds sv draw).coords) ∧
    (assembleTable (flatOf ds sv draw)).get ⟨3, by simp [assembleTable]⟩ =
      ("edges", ColumnData.nestedString (flatOf ds sv draw).offsets
        (flatOf ds sv draw).edges) ∧
    (∀ c ∈ assembleTable (flatOf ds sv draw),
      c.2.offsetsUsed = some (flatOf ds sv draw).offsets ∨
        (c.1 = "vehicle_id" ∧
          c.2 = ColumnData.scalarString (flatOf ds sv draw).vehicle_ids)) ∧
    (flatOf ds sv draw).offsets.length = (flatOf ds sv draw).vehicle_ids.length + 1 := by
  refine ⟨by simp [assembleTable], by simp [assembleTable], rfl, ?_, ?_⟩
  · intro c hc
    simp only [assembleTable, List.mem_cons, List.not_mem_nil, or_false] at hc
    rcases hc with rfl | rfl | rfl | rfl | rfl | rfl | rfl | rfl <;>
      simp [ColumnData.offsetsUsed]
  · exact (offsets_invariants ds sv draw).1

/-- C8 witness: on a concrete input, the second column is nested and built
from the shared offsets array. -/
theorem table_layout_witness :
    ((assembleTable (flatOf dsTwo none [])).get ⟨1, by decide⟩).2.offsetsUsed =
      some (flatOf dsTwo none []).offsets :=
  ((table_layout dsTwo none []).2.2.2.1 _ (by decide)).resolve_right (by decide)

/-- C6: when an optional input column is absent from the whole dataset, every
element of the corresponding output column equals the documented default:
speed 0.0, edge id empty string, position on edge 0.0, relative speed 1.0,
angle 0.0. -/
theorem missing_columns_defaults (ds : Dataset) (sv : Option Nat) (draw : List Int) :
    (ds.hasSpeed = false → ∀ x ∈ (flatOf ds sv draw).speeds, x = 0) ∧
    (ds.hasEdge = false → ∀ e ∈ (flatOf ds sv draw).edges, e = "") ∧
    (ds.hasPos = false → ∀ x ∈ (flatOf ds sv draw).positions, x = 0) ∧
    (ds.hasSpeedRel = false → ∀ x ∈ (flatOf ds sv draw).relative_speeds, x = 1) ∧
    (ds.hasAngle = false → ∀ x ∈ (flatOf ds sv draw).angles, x = 0) := by
  refine ⟨?_, ?_, ?_, ?_, ?_⟩ <;>
    · intro hflag x hx
      simp only [flatOf, buildFlat, List.mem_flatten, List.mem_map] at hx
      obtain ⟨l, ⟨p, hp, rfl⟩, hxl⟩ := hx
      rw [hflag] at hxl
      simp [tripSpeeds, tripEdges, tripPositions, tripRelativeSpeeds,
        tripAngles] at hxl
      obtain ⟨a, ha, rfl⟩ := hxl
      rfl

/-- C4: after the sort step the rows are stably sorted ascending by
(vehicle_id, timestep_time): the result is a permutation of the filtered
rows, pairwise ordered by the lexicographic key, and every key-ordered
sublist of the input survives as a sublist of the result (stability);
consequently the timestamps sequence of every output trip is
non-decreasing. -/
theorem sort_correct (ds : Dataset) (sv : Option Nat) (draw : List Int) :
    List.Perm (sortRows (timeFilter ds.rows)) (timeFilter ds.rows) ∧
    (sortRows (timeFilter ds.rows)).Pairwise RowLe ∧
    (∀ c : List Row, c.Pairwise RowLe → List.Sublist c (timeFilter ds.rows) →
      List.Sublist c (sortRows (timeFilter ds.rows))) ∧
    (∀ p ∈ grouped (retainedRows ds sv draw),
      (tripTimestamps p.2).Sorted (· ≤ ·)) := by
  refine ⟨(timeFilter ds.rows).perm_insertionSort RowLe, sortRows_pairwise _, ?_, ?_⟩
  · intro c hc hsub
    exact List.sublist_insertionSort hc hsub
  · intro p hp
    rw [grouped] at hp
    obtain ⟨k, hk, rfl⟩ := List.mem_map.mp hp
    exact groupRows_timestamps_sorted (retainedRows_pairwise ds sv draw) k

/-- C4 witness: on a concrete input, the equal-key pair (rowA, rowA2) keeps
its input order in the sorted result, and the trip of vehicle 2 has
non-decreasing timestamps. -/
theorem sort_correct_witness :
    [rowA, rowA2].Pairwise RowLe ∧
    List.Sublist [rowA, rowA2] (timeFilter dsTwo.rows) ∧
    List.Sublist [rowA, rowA2] (sortRows (timeFilter dsTwo.rows)) ∧
    ((2 : Int), groupRows 2 (retainedRows dsTwo none [])) ∈ grouped (retainedRows dsTwo none []) ∧
    (tripTimestamps (groupRows 2 (retainedRows dsTwo none []))).Sorted (· ≤ ·) := by
  refine ⟨by decide, by decide, ?_, by decide, ?_⟩
  · exact (sort_correct dsTwo none []).2.2.1 _ (by decide) (by decide)
  · exact (sort_correct dsTwo none []).2.2.2
      ((2 : Int), groupRows 2 (retainedRows dsTwo none [])) (by decide)

/-- C9 counterexample: with numeric vehicle identifiers 2 and 10 the trips
are emitted in key order 2, 10, so the stringified vehicle_id column is
["2", "10"], which is not sorted ascending in string order ("10" < "2"). -/
theorem vehicle_ids_not_sorted_counterexample :
    (flatOf dsTwo none []).vehicle_ids = ["2", "10"] ∧
    ¬ (flatOf dsTwo none []).vehicle_ids.Sorted (· ≤ ·) := by
  have hv : (flatOf dsTwo none []).vehicle_ids = ["2", "10"] := by decide
  refine ⟨hv, ?_⟩
  rw [hv]
  intro hs
  have h := List.rel_of_sorted_cons hs "10" (by simp)
  rw [String.le_iff_toList_le] at h
  exact absurd h (by decide)

/-- C9 (amended): trips are emitted in ascending order of the underlying
vehicle identifier — the group keys iterate in strictly increasing order —
and the output vehicle_id column is the elementwise stringification of that
ascending key sequence (so it is ascending in string order only when
stringification preserves the key order). -/
theorem trips_in_key_order (ds : Dataset) (sv : Option Nat) (draw : List Int) :
    (groupKeys (retainedRows ds sv draw)).Sorted (· < ·) ∧
    (flatOf ds sv draw).vehicle_ids =
      (groupKeys (retainedRows ds sv draw)).map toString := by
  constructor
  · exact (groupKeys_sorted _).lt_of_le (groupKeys_nodup _)
  · simp [flatOf, buildFlat, grouped, List.map_map]

/-- C1 counterexample: on a dataset whose rows all fall outside the time
window, the filter retains zero rows and the run aborts (numpy raises on the
min of an empty array) instead of succeeding. -/
theorem empty_window_counterexample :
    timeFilter dsOut.rows = [] ∧ runScript dsOut (some 100) [] = none := by
  decide

/-- C1 (amended): if the time-window filter retains zero rows the flatten
step still produces the degenerate valid buffers — 0 trips, offsets = [0],
all flat attribute arrays empty — but the script then aborts computing
`timestamps.min()` on a zero-size array before writing any output, so the
conversion does not exit successfully and no output file is produced. -/
theorem empty_window_aborts (ds : Dataset) (sv : Option Nat) (draw : List Int)
    (h : timeFilter ds.rows = []) :
    runScript ds sv draw = none ∧
    (flatOf ds sv draw).offsets = [0] ∧
    (flatOf ds sv draw).vehicle_ids = [] ∧
    (flatOf ds sv draw).coords = [] ∧
    (flatOf ds sv draw).timestamps = [] ∧
    (flatOf ds sv draw).speeds = [] ∧
    (flatOf ds sv draw).edges = [] ∧
    (flatOf ds sv draw).positions = [] ∧
    (flatOf ds sv draw).relative_speeds = [] ∧
    (flatOf ds sv draw).angles = [] := by
  have hr : retainedRows ds sv draw = [] := by
    rw [retainedRows, h]
    cases sv <;> rfl
  have hflat : flatOf ds sv draw =
      { offsets := [0], coords := [], timestamps := [], speeds := [],
        edges := [], positions := [], relative_speeds := [], angles := [],
        vehicle_ids := [] } := by
    unfold flatOf
    rw [hr]
    rfl
  have hrun : runScript ds sv draw = none := by
    unfold runScript
    rw [hflat]
    rfl
  rw [hflat, hrun]
  exact ⟨rfl, rfl, rfl, rfl, rfl, rfl, rfl, rfl, rfl, rfl⟩

/-- C1 witness for the amended claim: the concrete out-of-window dataset. -/
theorem empty_window_aborts_witness :
    timeFilter dsOut.rows = [] ∧ runScript dsOut none [] = none ∧
    (flatOf dsOut none []).offsets = [0] ∧
    (flatOf dsOut none []).coords = [] := by
  have h : timeFilter dsOut.rows = [] := by decide
  have main := empty_window_aborts dsOut none [] h
  exact ⟨h, main.1, main.2.1, main.2.2.2.1⟩

/-- C3: for every input and every trip, the seven per-trip attribute
sequences have identical length, equal to offsets[i+1] - offsets[i]; the
slice of every flat attribute buffer between offsets[i] and offsets[i+1] is
exactly that trip's sequence; each flat buffer has total length equal to the
number of retained rows; and entry j of every per-trip sequence is the
projection of the same retained source row. -/
theorem trip_attributes_aligned (ds : Dataset) (sv : Option Nat) (draw : List Int)
    (i : Nat) (hi : i < (grouped (retainedRows ds sv draw)).length)
    (h1 : i + 1 < (flatOf ds sv draw).offsets.length)
    (h0 : i < (flatOf ds sv draw).offsets.length) :
    ((flatOf ds sv draw).coords.length = (retainedRows ds sv draw).length ∧
     (flatOf ds sv draw).timestamps.length = (retainedRows ds sv draw).length ∧
     (flatOf ds sv draw).speeds.length = (retainedRows ds sv draw).length ∧
     (flatOf ds sv draw).edges.length = (retainedRows ds sv draw).length ∧
     (flatOf ds sv draw).positions.length = (retainedRows ds sv draw).length ∧
     (flatOf ds sv draw).relative_speeds.length = (retainedRows ds sv draw).length ∧
     (flatOf ds sv draw).angles.length = (retainedRows ds sv draw).length) ∧
    (∀ g, g = ((grouped (retainedRows ds sv draw)).get ⟨i, hi⟩).2 →
      ((flatOf ds sv draw).offsets.get ⟨i + 1, h1⟩ -
          (flatOf ds sv draw).offsets.get ⟨i, h0⟩ = g.length ∧
        (tripCoords g).length = g.length ∧
        (tripTimestamps g).length = g.length ∧
        (tripSpeeds ds.hasSpeed g).length = g.length ∧
        (tripEdges ds.hasEdge g).length = g.length ∧
        (tripPositions ds.hasPos g).length = g.length ∧
        (tripRelativeSpeeds ds.hasSpeedRel g).length = g.length ∧
        (tripAngles ds.hasAngle g).length = g.length) ∧
      (((flatOf ds sv draw).coords.drop
          ((flatOf ds sv draw).offsets.get ⟨i, h0⟩)).take g.length = tripCoords g ∧
        ((flatOf ds sv draw).timestamps.drop
          ((flatOf ds sv draw).offsets.get ⟨i, h0⟩)).take g.length = tripTimestamps g ∧
        ((flatOf ds sv draw).speeds.drop
          ((flatOf ds sv draw).offsets.get ⟨i, h0⟩)).take g.length = tripSpeeds ds.hasSpeed g ∧
        ((flatOf ds sv draw).edges.drop
          ((flatOf ds sv draw).offsets.get ⟨i, h0⟩)).take g.length = tripEdges ds.hasEdge g ∧
        ((flatOf ds sv draw).positions.drop
          ((flatOf ds sv draw).offsets.get ⟨i, h0⟩)).take g.length = tripPositions ds.hasPos g ∧
        ((flatOf ds sv draw).relative_speeds.drop
          ((flatOf ds sv draw).offsets.get ⟨i, h0⟩)).take g.length = tripRelativeSpeeds ds.hasSpeedRel g ∧
        ((flatOf ds sv draw).angles.drop
          ((flatOf ds sv draw).offsets.get ⟨i, h0⟩)).take g.length = tripAngles ds.hasAngle g) ∧
      (∀ j (hj : j < g.length),
        (tripCoords g).get ⟨j, by rw [tripCoords_length]; exact hj⟩ =
          ((g.get ⟨j, hj⟩).vehicle_x, (g.get ⟨j, hj⟩).vehicle_y) ∧
        (tripTimestamps g).get ⟨j, by rw [tripTimestamps_length]; exact hj⟩ =
          (g.get ⟨j, hj⟩).timestep_time ∧
        (tripSpeeds ds.hasSpeed g).get ⟨j, by rw [tripSpeeds_length]; exact hj⟩ =
          (if ds.hasSpeed then (g.get ⟨j, hj⟩).vehicle_speed else 0) ∧
        (tripEdges ds.hasEdge g).get ⟨j, by rw [tripEdges_length]; exact hj⟩ =
          (if ds.hasEdge then (g.get ⟨j, hj⟩).vehicle_edge else "") ∧
        (tripPositions ds.hasPos g).get ⟨j, by rw [tripPositions_length]; exact hj⟩ =
          (if ds.hasPos then (g.get ⟨j, hj⟩).vehicle_pos else 0) ∧
        (tripRelativeSpeeds ds.hasSpeedRel g).get
            ⟨j, by rw [tripRelativeSpeeds_length]; exact hj⟩ =
          (if ds.hasSpeedRel then (g.get ⟨j, hj⟩).vehicle_speedRelative else 1) ∧
        (tripAngles ds.hasAngle g).get ⟨j, by rw [tripAngles_length]; exact hj⟩ =
          (if ds.hasAngle then (g.get ⟨j, hj⟩).vehicle_angle else 0))) := by
  constructor
  · exact ⟨(flat_buffer_facts _ _ tripCoords_length i hi h0).1,
      (flat_buffer_facts _ _ tripTimestamps_length i hi h0).1,
      (flat_buffer_facts _ _ (tripSpeeds_length ds.hasSpeed) i hi h0).1,
      (flat_buffer_facts _ _ (tripEdges_length ds.hasEdge) i hi h0).1,
      (flat_buffer_facts _ _ (tripPositions_length ds.hasPos) i hi h0).1,
      (flat_buffer_facts _ _ (tripRelativeSpeeds_length ds.hasSpeedRel) i hi h0).1,
      (flat_buffer_facts _ _ (tripAngles_length ds.hasAngle) i hi h0).1⟩
  · rintro g rfl
    have higs : i < ((grouped (retainedRows ds sv draw)).map Prod.snd).length := by
      simpa using hi
    refine ⟨⟨?_, tripCoords_length _, tripTimestamps_length _, tripSpeeds_length _ _,
        tripEdges_length _ _, tripPositions_length _ _, tripRelativeSpeeds_length _ _,
        tripAngles_length _ _⟩, ?_, ?_⟩
    · have hsucc := offsetsFrom_get_succ 0
        ((grouped (retainedRows ds sv draw)).map Prod.snd) i higs h1 h0
      have hgm : (((grouped (retainedRows ds sv draw)).map Prod.snd).get ⟨i, higs⟩) =
          ((grouped (retainedRows ds sv draw)).get ⟨i, hi⟩).2 := by
        simp
      rw [hgm] at hsucc
      show (offsetsFrom 0 ((grouped (retainedRows ds sv draw)).map Prod.snd)).get ⟨i + 1, h1⟩ -
        (offsetsFrom 0 ((grouped (retainedRows ds sv draw)).map Prod.snd)).get ⟨i, h0⟩ =
        ((grouped (retainedRows ds sv draw)).get ⟨i, hi⟩).2.length
      omega
    · exact ⟨(flat_buffer_facts _ _ tripCoords_length i hi h0).2,
        (flat_buffer_facts _ _ tripTimestamps_length i hi h0).2,
        (flat_buffer_facts _ _ (tripSpeeds_length ds.hasSpeed) i hi h0).2,
        (flat_buffer_facts _ _ (tripEdges_length ds.hasEdge) i hi h0).2,
        (flat_buffer_facts _ _ (tripPositions_length ds.hasPos) i hi h0).2,
        (flat_buffer_facts _ _ (tripRelativeSpeeds_length ds.hasSpeedRel) i hi h0).2,
        (flat_buffer_facts _ _ (tripAngles_length ds.hasAngle) i hi h0).2⟩
    · intro j hj
      refine ⟨?_, ?_, ?_, ?_, ?_, ?_, ?_⟩
      · simp [tripCoords]
      · simp [tripTimestamps]
      · cases hb : ds.hasSpeed <;> simp [tripSpeeds, hb]
      · cases hb : ds.hasEdge <;> simp [tripEdges, hb]
      · cases hb : ds.hasPos <;> simp [tripPositions, hb]
      · cases hb : ds.hasSpeedRel <;> simp [tripRelativeSpeeds, hb]
      · cases hb : ds.hasAngle <;> simp [tripAngles, hb]

/-- C3 witness: on the concrete two-vehicle dataset, trip 0 (vehicle 2) has
three samples: the offsets difference is 3, and entry 0 of the timestamps
trip is the timestamp of the first retained row of that group. -/
theorem trip_attributes_aligned_witness :
    (flatOf dsTwo none []).coords.length = (retainedRows dsTwo none []).length ∧
    (flatOf dsTwo none []).offsets.get ⟨1, by decide⟩ -
        (flatOf dsTwo none []).offsets.get ⟨0, by decide⟩ =
      (groupRows 2 (retainedRows dsTwo none [])).length ∧
    (tripTimestamps (groupRows 2 (retainedRows dsTwo none []))).get ⟨0, by decide⟩ =
      ((groupRows 2 (retainedRows dsTwo none [])).get ⟨0, by decide⟩).timestep_time := by
  have main := trip_attributes_aligned dsTwo none [] 0 (by decide) (by decide) (by decide)
  have hmg := main.2 (groupRows 2 (retainedRows dsTwo none [])) (by decide)
  exact ⟨main.1.1, hmg.1.1, (hmg.2.2 0 (by decide)).2.1⟩

/-- C5: with a configured vehicle-sample count `n` and a draw as produced by
`np.random.choice(unique_vehicles, size=min(n, len(unique_vehicles)),
replace=False)` — no duplicates, drawn from the distinct ids, of size
`min n (number of distinct ids)` — if `n` is at least the number of distinct
vehicles everything is kept; if `n` is smaller, exactly `n` distinct vehicles
are drawn and each retained vehicle keeps all of its rows while undrawn
vehicles lose all of theirs. -/
theorem sampling_spec (ds : Dataset) (n : Nat) (draw : List Int)
    (hnd : draw.Nodup)
    (hsub : ∀ v ∈ draw, v ∈ uniqueVehicles (sortRows (timeFilter ds.rows)))
    (hlen : draw.length = min n (uniqueVehicles (sortRows (timeFilter ds.rows))).length) :
    ((uniqueVehicles (sortRows (timeFilter ds.rows))).length ≤ n →
      retainedRows ds (some n) draw = sortRows (timeFilter ds.rows)) ∧
    (n < (uniqueVehicles (sortRows (timeFilter ds.rows))).length →
      draw.length = n ∧
      (∀ k ∈ draw, groupRows k (retainedRows ds (some n) draw) =
        groupRows k (sortRows (timeFilter ds.rows))) ∧
      (∀ k, k ∉ draw → groupRows k (retainedRows ds (some n) draw) = []) ∧
      (uniqueVehicles (retainedRows ds (some n) draw)).length = n) := by
  set sorted := sortRows (timeFilter ds.rows) with hsorted
  have hret : retainedRows ds (some n) draw =
      sorted.filter (fun r => decide (r.vehicle_id ∈ draw)) := rfl
  have huniq_nodup : (uniqueVehicles sorted).Nodup := List.nodup_dedup _
  constructor
  · intro hle
    have hdlen : draw.length = (uniqueVehicles sorted).length := by
      rw [hlen, min_eq_right hle]
    have hdf : draw.toFinset = (uniqueVehicles sorted).toFinset := by
      apply Finset.eq_of_subset_of_card_le
      · intro v hv
        rw [List.mem_toFinset] at hv ⊢
        exact hsub v hv
      · rw [List.toFinset_card_of_nodup huniq_nodup,
          List.toFinset_card_of_nodup hnd, hdlen]
    rw [hret]
    apply List.filter_eq_self.mpr
    intro r hr
    have hm : r.vehicle_id ∈ uniqueVehicles sorted := by
      rw [uniqueVehicles, List.mem_dedup]
      exact List.mem_map_of_mem Row.vehicle_id hr
    rw [← List.mem_toFinset, ← hdf, List.mem_toFinset] at hm
    simpa using hm
  · intro hlt
    have hdlen : draw.length = n := by
      rw [hlen, min_eq_left (le_of_lt hlt)]
    refine ⟨hdlen, ?_, ?_, ?_⟩
    · intro k hk
      rw [hret, groupRows, groupRows, List.filter_filter]
      apply List.filter_congr
      intro r _
      by_cases h : r.vehicle_id = k
      · simp [h, hk]
      · simp [h]
    · intro k hk
      rw [hret, groupRows, List.filter_filter]
      apply List.filter_eq_nil_iff.mpr
      intro r _
      simp only [Bool.and_eq_true, decide_eq_true_iff, beq_iff_eq]
      rintro ⟨hidk, hmem⟩
      exact hk (hidk ▸ hmem)
    · have hdf : (uniqueVehicles (retainedRows ds (some n) draw)).toFinset =
          draw.toFinset := by
        ext v
        rw [List.mem_toFinset, List.mem_toFinset]
        constructor
        · intro hv
          rw [uniqueVehicles, List.mem_dedup, List.mem_map] at hv
          obtain ⟨r, hr, rfl⟩ := hv
          rw [hret, List.mem_filter] at hr
          simpa using hr.2
        · intro hv
          have hvu := hsub v hv
          rw [uniqueVehicles, List.mem_dedup, List.mem_map] at hvu
          obtain ⟨r, hr, rfl⟩ := hvu
          rw [uniqueVehicles, List.mem_dedup, List.mem_map]
          refine ⟨r, ?_, rfl⟩
          rw [hret, List.mem_filter]
          exact ⟨hr, by simpa using hv⟩
      have h1 : (uniqueVehicles (retainedRows ds (some n) draw)).Nodup :=
        List.nodup_dedup _
      rw [← List.toFinset_card_of_nodup h1, hdf,
        List.toFinset_card_of_nodup hnd, hdlen]

/-- C5 witness: on the concrete two-vehicle dataset, sampling with n = 5
keeps everything and sampling with n = 1 and draw [10] keeps exactly vehicle
10 with all of its rows. -/
theorem sampling_spec_witness :
    retainedRows dsTwo (some 5) [2, 10] = sortRows (timeFilter dsTwo.rows) ∧
    groupRows 10 (retainedRows dsTwo (some 1) [10]) =
      groupRows 10 (sortRows (timeFilter dsTwo.rows)) ∧
    groupRows 2 (retainedRows dsTwo (some 1) [10]) = [] ∧
    (uniqueVehicles (retainedRows dsTwo (some 1) [10])).length = 1 := by
  refine ⟨?_, ?_, ?_, ?_⟩
  · exact (sampling_spec dsTwo 5 [2, 10] (by decide) (by decide) (by decide)).1
      (by decide)
  · exact ((sampling_spec dsTwo 1 [10] (by decide) (by decide) (by decide)).2
      (by decide)).2.1 10 (by decide)
  · exact ((sampling_spec dsTwo 1 [10] (by decide) (by decide) (by decide)).2
      (by decide)).2.2.1 2 (by decide)
  · exact ((sampling_spec dsTwo 1 [10] (by decide) (by decide) (by decide)).2
      (by decide)).2.2.2

/-- C6 witness: on a concrete dataset with all optional columns absent, the
first element of each defaulted output column equals its default. -/
theorem missing_columns_defaults_witness :
    dsBare.hasSpeed = false ∧ (flatOf dsBare none []).speeds.getD 0 37 = 0 ∧
    dsBare.hasEdge = false ∧ (flatOf dsBare none []).edges.getD 0 "x" = "" ∧
    dsBare.hasPos = false ∧ (flatOf dsBare none []).positions.getD 0 37 = 0 ∧
    dsBare.hasSpeedRel = false ∧ (flatOf dsBare none []).relative_speeds.getD 0 37 = 1 ∧
    dsBare.hasAngle = false ∧ (flatOf dsBare none []).angles.getD 0 37 = 0 := by
  refine ⟨rfl, ?_, rfl, ?_, rfl, ?_, rfl, ?_, rfl, ?_⟩
  · exact (missing_columns_defaults dsBare none []).1 rfl _ (by decide)
  · exact (missing_columns_defaults dsBare none []).2.1 rfl _ (by decide)
  · exact (missing_columns_defaults dsBare none []).2.2.1 rfl _ (by decide)
  · exact (missing_columns_defaults dsBare none []).2.2.2.1 rfl _ (by decide)
  · exact (missing_columns_defaults dsBare none []).2.2.2.2 rfl _ (by decide)

end GenerateData
